import Mathlib

/-
Verification of the ScaryPi eye-animation engine (scarypi.py): a shallow
embedding of its data model and operations, with theorems checking the
specification's claims against the code. Timestamps and interpolation
percentages are modelled as rationals (milliseconds); Python float literals
such as 0.49 are taken at their decimal value 49/100.
-/

namespace ScaryPi

/-- Truncation toward zero: the semantics of Python int() on a number. -/
def pyInt (q : ℚ) : ℤ := if q < 0 then -⌊-q⌋ else ⌊q⌋

/-- Point class (scarypi.py lines 28-35): a mutable pair of integer coordinates. -/
structure Point where
  x : ℤ
  y : ℤ
deriving DecidableEq

/-- Eye state (lines 290-311): pupil center, eyelid offset, and the 8x8 pixel
buffer, one byte per row, bit 7-x of row y being pixel (x, y). -/
structure Eye where
  pupil : Point
  eyelids : ℤ
  pixels : List ℕ
deriving DecidableEq

/-- The eye_ball template bitmap (lines 294-303). -/
def eyeBall : List ℕ := [0x3C, 0x7E, 0xFF, 0xFF, 0xFF, 0xFF, 0x7E, 0x3C]

/-- Eye.__init__ (lines 305-311): template pixels, pupil (4,4), eyelids -1. -/
def Eye.init : Eye := ⟨⟨4, 4⟩, -1, eyeBall⟩

/-- Eye._off (lines 319-323): clears pixel (x, y), wrapping both coordinates
mod 8. Buffer bytes are 8-bit, so the AND with the complement of the mask is
an AND with its complement in 255. -/
def Eye.off_ (e : Eye) (x y : ℤ) : Eye :=
  let yw := (y % 8).toNat
  let xw := (x % 8).toNat
  { e with pixels := e.pixels.set yw ((e.pixels.getD yw 0) &&& (255 ^^^ (1 <<< (7 - xw)))) }

/-- Eye._row_off (lines 330-333): clears the whole row y, wrapping y modulo
len(pixels). -/
def Eye.rowOff (e : Eye) (y : ℤ) : Eye :=
  let yw := (y % (e.pixels.length : ℤ)).toNat
  { e with pixels := e.pixels.set yw 0 }

/-- Eye._look (lines 335-339): installs pos as the pupil, then reassigns the
stored coordinates to their values mod 8. In Python the assignments hit the
fields of the very Point object passed in. -/
def Eye.look_ (e : Eye) (pos : Point) : Eye :=
  { e with pupil := ⟨pos.x % 8, pos.y % 8⟩ }

/-- Field values of the Point object handed to Eye._look once the call
returns: the object is aliased as the pupil, and lines 338-339 reassign its
x and y to their values mod 8 in place. -/
def Point.afterLook (pos : Point) : Point := ⟨pos.x % 8, pos.y % 8⟩

/-- Eye._eyelids (lines 341-343): clamped write of the eyelid offset. -/
def Eye.eyelidsSet (e : Eye) (offset : ℤ) : Eye :=
  { e with eyelids := max (-1) (min offset 3) }

/-- Eye.image (lines 353-366): resets the buffer to the template, clears the
2x2 pupil block at (pupil.x-1..pupil.x, pupil.y-1..pupil.y), clears rows
0..eyelids and 7-eyelids..7 when eyelids is nonnegative, and returns the
buffer (the bitmap handed to the renderer). -/
def Eye.imageBytes (e : Eye) : List ℕ :=
  let e1 : Eye := { e with pixels := eyeBall }
  let e2 := (((e1.off_ (e.pupil.x - 1) (e.pupil.y - 1)).off_ e.pupil.x (e.pupil.y - 1)).off_
      (e.pupil.x - 1) e.pupil.y).off_ e.pupil.x e.pupil.y
  let e3 :=
    if 0 ≤ e.eyelids then
      (List.range (e.eyelids.toNat + 1)).foldl
        (fun acc i => (acc.rowOff (i : ℤ)).rowOff (7 - (i : ℤ))) e2
    else e2
  e3.pixels

/-- Eye.image also leaves the rendered buffer in the pixels field. -/
def Eye.image (e : Eye) : Eye := { e with pixels := e.imageBytes }

/-- Reads pixel (x, y) of a row buffer: bit 7-x of row y. -/
def pixelOn (rows : List ℕ) (x y : Fin 8) : Bool := (rows.getD y.val 0).testBit (7 - x.val)

/-- Membership of column x, row y in the 2x2 pupil block: columns
pupil.x-1..pupil.x and rows pupil.y-1..pupil.y, each coordinate wrapped
mod 8 independently. -/
def inPupilBlockB (p : Point) (x y : Fin 8) : Bool :=
  (((x.val : ℤ) == (p.x - 1) % 8) || ((x.val : ℤ) == p.x % 8)) &&
  (((y.val : ℤ) == (p.y - 1) % 8) || ((y.val : ℤ) == p.y % 8))

/-- Rows blanked by the eyelids: rows 0..eyelids and rows 7-eyelids..7, and
only when eyelids is nonnegative. -/
def inEyelidRowsB (eyelids : ℤ) (y : Fin 8) : Bool :=
  decide (0 ≤ eyelids) && (decide ((y.val : ℤ) ≤ eyelids) || decide (7 - eyelids ≤ (y.val : ℤ)))

/-- Which of the two shared Eye instances a leaf animation references. -/
inductive EyeId
  | left
  | right
deriving DecidableEq

/-- The shared mutable state the animations act on: the two eyes owned by
animation_loop and the device contrast register. -/
structure World where
  left : Eye
  right : Eye
  contrast : ℤ
deriving DecidableEq

def World.eye (w : World) : EyeId → Eye
  | .left => w.left
  | .right => w.right

def World.setEye (w : World) : EyeId → Eye → World
  | .left, e => { w with left := e }
  | .right, e => { w with right := e }

/-- Animation base-class state (lines 41-44): the start time once begun, and
the done flag. -/
structure BaseState where
  start : Option ℚ
  done : Bool
deriving DecidableEq

/-- The closed set of animation variants of scarypi.py: the LinearAnimation
leaves Look, Blink, GlowEyes and Wait (each holding its base state and
duration_ms, plus the constructor-captured fields), and the combinators
AnimationGroup and AnimationSequence. -/
inductive Anim
  | look (base : BaseState) (duration_ms : ℚ) (eye : EyeId) (origin dest : Point) (dx dy : ℤ)
  | blink (base : BaseState) (duration_ms : ℚ) (eye : EyeId) (eyelid : ℤ)
  | glow (base : BaseState) (duration_ms : ℚ)
  | wait (base : BaseState) (duration_ms : ℚ)
  | group (base : BaseState) (children : List Anim)
  | seq (base : BaseState) (queue : List Anim) (active : Option Anim)

instance : Inhabited Anim := ⟨.wait ⟨none, false⟩ 300⟩

def Anim.base : Anim → BaseState
  | .look b _ _ _ _ _ _ => b
  | .blink b _ _ _ => b
  | .glow b _ => b
  | .wait b _ => b
  | .group b _ => b
  | .seq b _ _ => b

/-- The observable done flag. -/
def Anim.done (a : Anim) : Bool := a.base.done

/-- The recorded start time, if the animation has been begun. -/
def Anim.startOf (a : Anim) : Option ℚ := a.base.start

def Anim.isLeaf : Anim → Bool
  | .look _ _ _ _ _ _ _ => true
  | .blink _ _ _ _ => true
  | .glow _ _ => true
  | .wait _ _ => true
  | .group _ _ => false
  | .seq _ _ _ => false

/-- duration_ms of a LinearAnimation leaf. -/
def Anim.durationOf : Anim → Option ℚ
  | .look _ d _ _ _ _ _ => some d
  | .blink _ d _ _ => some d
  | .glow _ d => some d
  | .wait _ d => some d
  | .group _ _ => none
  | .seq _ _ _ => none

/-- Destination point captured by a Look. -/
def Anim.destOf : Anim → Option Point
  | .look _ _ _ _ dest _ _ => some dest
  | _ => none

/-- Children of an AnimationGroup. -/
def Anim.childrenOf : Anim → List Anim
  | .group _ cs => cs
  | _ => []

/-- Remaining queue of an AnimationSequence. -/
def Anim.queueOf : Anim → List Anim
  | .seq _ q _ => q
  | _ => []

/-- Active slot of an AnimationSequence. -/
def Anim.activeOf : Anim → Option Anim
  | .seq _ _ act => act
  | _ => none

mutual

/-- Animation.begin (lines 46-48) and AnimationGroup.begin (lines 88-91):
records the start time; a group also begins every child at the same
timestamp. AnimationSequence does not override begin, so its children are
untouched. -/
def Anim.begin : Anim → ℚ → Anim
  | .look b d eid o ds dx dy, now => .look { b with start := some now } d eid o ds dx dy
  | .blink b d eid el, now => .blink { b with start := some now } d eid el
  | .glow b d, now => .glow { b with start := some now } d
  | .wait b d, now => .wait { b with start := some now } d
  | .group b cs, now => .group { b with start := some now } (Anim.beginList cs now)
  | .seq b q act, now => .seq { b with start := some now } q act

def Anim.beginList : List Anim → ℚ → List Anim
  | [], _ => []
  | c :: cs, now => Anim.begin c now :: Anim.beginList cs now

end

/-- The shared body of LinearAnimation.tick (lines 62-73): from the base
state, the duration and the current time, the updated base state and the
percentage to hand to the subclass _animate, if any. In the program begin
always precedes tick, so the start is set; a missed begin is modelled as a
no-op. -/
def linStep (b : BaseState) (duration_ms : ℚ) (now : ℚ) : BaseState × Option ℚ :=
  match b.start with
  | none => (b, none)
  | some s =>
    let dt := now - s
    if dt ≤ 0 then (b, none)
    else if dt ≤ duration_ms then (b, some (dt / duration_ms))
    else ({ b with done := true }, some 1)

/-- Look._animate (lines 147-151): unless already done, commits the
truncated interpolation origin + delta * pct to the eye via Eye._look. -/
def World.lookAnimate (w : World) (eid : EyeId) (origin : Point) (dx dy : ℤ)
    (done : Bool) (pct : ℚ) : World :=
  if done then w
  else
    let curr : Point :=
      ⟨pyInt ((origin.x : ℚ) + (dx : ℚ) * pct), pyInt ((origin.y : ℚ) + (dy : ℚ) * pct)⟩
    w.setEye eid ((w.eye eid).look_ curr)

/-- Blink._animate (lines 163-176): unless already done, closes the eyelids
over the first half of the animation and reopens them over the second, and
forces the eyelids fully open once pct reaches 1. -/
def World.blinkAnimate (w : World) (eid : EyeId) (done : Bool) (pct : ℚ) : World :=
  if done then w
  else
    let w1 :=
      if pct < 1 / 2 then
        w.setEye eid ((w.eye eid).eyelidsSet (pyInt (4 * (pct / (49 / 100)) + 1 / 2)))
      else
        w.setEye eid ((w.eye eid).eyelidsSet (pyInt (4 - (4 * ((pct - 1 / 2) / (49 / 100)) + 1 / 2))))
    if 1 ≤ pct then w1.setEye eid ((w1.eye eid).eyelidsSet (-1)) else w1

/-- GlowEyes._animate (lines 267-279): unless already done, raises the device
contrast over the first half of the animation and lowers it over the second,
and forces it back to 30 once pct reaches 1. -/
def World.glowAnimate (w : World) (done : Bool) (pct : ℚ) : World :=
  if done then w
  else
    let w1 :=
      if pct < 1 / 2 then { w with contrast := pyInt (30 + 120 * (pct / (49 / 100))) }
      else { w with contrast := pyInt (150 - 120 * ((pct - 1 / 2) / (49 / 100))) }
    if 1 ≤ pct then { w1 with contrast := 30 } else w1

/-- The contrast values GlowEyes._animate passes to device.contrast on a
single not-yet-done call, in order (lines 270-279). -/
def glowCalls (pct : ℚ) : List ℤ :=
  (if pct < 1 / 2 then [pyInt (30 + 120 * (pct / (49 / 100)))]
   else [pyInt (150 - 120 * ((pct - 1 / 2) / (49 / 100)))])
  ++ (if 1 ≤ pct then [(30 : ℤ)] else [])

/-- The tail of AnimationSequence.tick once the active slot is empty (lines
118-128): pop and begin the next queued animation and return, or mark the
sequence done when the queue is exhausted. -/
def Anim.seqNext (b : BaseState) (q : List Anim) (now : ℚ) (w : World) : Anim × World :=
  match q with
  | c :: rest => (.seq b rest (some (Anim.begin c now)), w)
  | [] => (.seq { b with done := true } [] none, w)

mutual

/-- tick for every variant. Leaves follow LinearAnimation.tick (lines 62-73)
dispatching to their _animate; AnimationGroup.tick (lines 93-100) ticks all
children and recomputes done; AnimationSequence.tick (lines 111-130) drops a
finished active animation, pops and begins the next one without stepping it,
or steps the active one. -/
def Anim.tick : Anim → ℚ → World → Anim × World
  | .look b d eid o ds dx dy, now, w =>
    let r := linStep b d now
    (.look r.1 d eid o ds dx dy,
      match r.2 with
      | none => w
      | some pct => w.lookAnimate eid o dx dy b.done pct)
  | .blink b d eid el, now, w =>
    let r := linStep b d now
    (.blink r.1 d eid el,
      match r.2 with
      | none => w
      | some pct => w.blinkAnimate eid b.done pct)
  | .glow b d, now, w =>
    let r := linStep b d now
    (.glow r.1 d,
      match r.2 with
      | none => w
      | some pct => w.glowAnimate b.done pct)
  | .wait b d, now, w => (.wait (linStep b d now).1 d, w)
  | .group b cs, now, w =>
    let r := Anim.tickList cs now w
    (.group { b with done := r.1.all Anim.done } r.1, r.2)
  | .seq b q act, now, w =>
    match act with
    | some a =>
      if a.done then Anim.seqNext b q now w
      else
        let r := Anim.tick a now w
        (.seq b q (some r.1), r.2)
    | none => Anim.seqNext b q now w

/-- Ticks a list of children left to right, threading the world through. -/
def Anim.tickList : List Anim → ℚ → World → List Anim × World
  | [], _, w => ([], w)
  | c :: cs, now, w =>
    let r := Anim.tick c now w
    let rs := Anim.tickList cs now r.2
    (r.1 :: rs.1, rs.2)

end

/-- Look.__init__ (lines 136-145): captures the eye's current pupil as the
origin, the destination and the deltas, and marks itself done at construction
when the deltas are both zero. -/
def Look.init (eid : EyeId) (e : Eye) (wh : Point) (duration_ms : ℚ := 200) : Anim :=
  let origin := e.pupil
  let dx := wh.x - origin.x
  let dy := wh.y - origin.y
  .look ⟨none, dx == 0 && dy == 0⟩ duration_ms eid origin wh dx dy

/-- Eye.look (lines 345-347). -/
def Eye.look (eid : EyeId) (e : Eye) (pos : Point) (duration_ms : ℚ := 300) : Anim :=
  Look.init eid e pos duration_ms

/-- Blink.__init__ (lines 154-161): stores the eye and an eyelid field that
nothing updates afterwards. -/
def Blink.init (eid : EyeId) (duration_ms : ℚ := 500) : Anim :=
  .blink ⟨none, false⟩ duration_ms eid 0

/-- Eye.blink (lines 349-351). -/
def Eye.blink (eid : EyeId) (duration_ms : ℚ := 500) : Anim := Blink.init eid duration_ms

/-- Wait.__init__ (lines 282-287): the first positional parameter is named
eye and is discarded; only duration_ms, which every caller in the program
leaves at its default 300, reaches LinearAnimation.__init__. -/
def Wait.init (eye : ℤ) (duration_ms : ℚ := 300) : Anim := .wait ⟨none, false⟩ duration_ms

/-- GlowEyes.__init__ (lines 262-265). -/
def GlowEyes.init (duration_ms : ℚ := 300) : Anim := .glow ⟨none, false⟩ duration_ms

/-- CrossEyes (lines 179-187). Integer division as in Python 2. -/
def CrossEyes.init (w : World) (duration_ms : ℤ := 3000) : Anim :=
  let ms := duration_ms / 3
  .seq ⟨none, false⟩
    [.group ⟨none, false⟩
        [Eye.look .left w.left ⟨6, 4⟩ (ms : ℚ), Eye.look .right w.right ⟨2, 4⟩ (ms : ℚ)],
      Wait.init ms,
      .group ⟨none, false⟩
        [Eye.look .left w.left ⟨4, 4⟩ (ms : ℚ), Eye.look .right w.right ⟨4, 4⟩ (ms : ℚ)]]
    none

/-- MethEyes (lines 190-198). -/
def MethEyes.init (w : World) (duration_ms : ℤ := 3000) : Anim :=
  let ms := duration_ms / 3
  .seq ⟨none, false⟩
    [.group ⟨none, false⟩
        [Eye.look .left w.left ⟨2, 4⟩ (ms : ℚ), Eye.look .right w.right ⟨6, 4⟩ (ms : ℚ)],
      Wait.init ms,
      .group ⟨none, false⟩
        [Eye.look .left w.left ⟨4, 4⟩ (ms : ℚ), Eye.look .right w.right ⟨4, 4⟩ (ms : ℚ)]]
    none

/-- CrazyBlink (lines 201-208). -/
def CrazyBlink.init (duration_ms : ℤ := 1500) : Anim :=
  let ms := duration_ms / 2
  .seq ⟨none, false⟩ [Eye.blink .left (ms : ℚ), Eye.blink .right (ms : ℚ)] none

/-- LazyEye (lines 211-218): lowers the pupil slowly, raises it quickly. -/
def LazyEye.init (eid : EyeId) (e : Eye) (duration_ms : ℤ := 2000) : Anim :=
  let ms := duration_ms / 3
  .seq ⟨none, false⟩
    [Eye.look eid e ⟨4, 6⟩ ((ms * 2 : ℤ) : ℚ), Eye.look eid e ⟨4, 4⟩ (ms : ℚ)] none

/-- CrazySpin (lines 221-231): times*8 groups, step i sending both pupils to
Point(4 - i, 4); every Look captures the eyes as they are at construction. -/
def CrazySpin.init (w : World) (duration_ms : ℤ := 400) : Anim :=
  let times : ℕ := 2
  let ms : ℤ := duration_ms / ((times : ℤ) * 8)
  let a := (List.range (times * 8)).map fun i =>
    let x : ℤ := 4 - (i : ℤ)
    Anim.group ⟨none, false⟩
      [Eye.look .left w.left ⟨x, 4⟩ (ms : ℚ), Eye.look .right w.right ⟨x, 4⟩ (ms : ℚ)]
  .seq ⟨none, false⟩ a none

/-- RoundSpin (lines 234-256): a lead-in group followed by times copies of
the 13-group circular path. -/
def RoundSpin.init (w : World) (duration_ms : ℤ := 400) : Anim :=
  let times : ℕ := 2
  let ms : ℤ := duration_ms / ((times : ℤ) * 13 + 1)
  let pair := fun (pl pr : Point) =>
    Anim.group ⟨none, false⟩
      [Eye.look .left w.left pl (ms : ℚ), Eye.look .right w.right pr (ms : ℚ)]
  let cycle := [pair ⟨6, 4⟩ ⟨2, 4⟩, pair ⟨6, 3⟩ ⟨2, 3⟩, pair ⟨5, 2⟩ ⟨3, 2⟩,
    pair ⟨4, 2⟩ ⟨4, 2⟩, pair ⟨3, 2⟩ ⟨5, 2⟩, pair ⟨2, 3⟩ ⟨6, 3⟩, pair ⟨2, 4⟩ ⟨6, 4⟩,
    pair ⟨2, 5⟩ ⟨6, 5⟩, pair ⟨3, 6⟩ ⟨5, 6⟩, pair ⟨4, 6⟩ ⟨4, 6⟩, pair ⟨5, 6⟩ ⟨3, 6⟩,
    pair ⟨6, 5⟩ ⟨2, 5⟩, pair ⟨6, 4⟩ ⟨2, 4⟩]
  let a := (List.range times).foldl (fun acc _ => acc ++ cycle) [pair ⟨6, 4⟩ ⟨2, 4⟩]
  .seq ⟨none, false⟩ a none

/-- pick_effect (lines 389-403), with the random.randint(0, 6) draw as a
parameter. -/
def pick_effect (i : ℤ) (w : World) : Anim :=
  if i = 0 then CrossEyes.init w 3000
  else if i = 1 then CrazySpin.init w 400
  else if i = 2 then MethEyes.init w 3000
  else if i = 3 then CrazyBlink.init 1500
  else if i = 4 then LazyEye.init .left w.left 2000
  else if i = 5 then RoundSpin.init w 400
  else GlowEyes.init 300

/-- The world at animation_loop entry: two fresh eyes, contrast 30 from main
(lines 405-407 and 441-444). -/
def W0 : World := ⟨Eye.init, Eye.init, 30⟩

/-- The idle-cycle refill of the top-level sequence in animation_loop (lines
412-428), parameterized by the random draws: the look target coordinates
px, py from randint(2,5), waitR from randint(5,7), blinkR from randint(0,3),
effectR from randint(0,6) and the pick_effect draw pickR. -/
def idleRefill (w : World) (px py waitR blinkR effectR pickR : ℤ) : Anim :=
  let p : Point := ⟨px, py⟩
  let a1 := [Anim.group ⟨none, false⟩
      [Eye.look .left w.left p 300, Eye.look .right w.right p 300]]
  let a2 := a1 ++ [Wait.init (waitR * 500)]
  let a3 := a2 ++
    (if blinkR = 0 then
      [Anim.group ⟨none, false⟩ [Eye.blink .left 500, Eye.blink .right 500]]
     else [])
  let a4 := a3 ++ (if effectR = 0 then [pick_effect pickR w] else [])
  .seq ⟨none, false⟩ a4 none

/-- Consistency of the done flags of an animation tree: a done group has only
done children, a done sequence has an exhausted queue and no active child,
and every active child is itself consistent. The program leaves every
animation in such a state whenever it sets a done flag. -/
inductive DonesOk : Anim → Prop
  | look (b : BaseState) (d : ℚ) (eid : EyeId) (o ds : Point) (dx dy : ℤ) :
      DonesOk (.look b d eid o ds dx dy)
  | blink (b : BaseState) (d : ℚ) (eid : EyeId) (el : ℤ) : DonesOk (.blink b d eid el)
  | glow (b : BaseState) (d : ℚ) : DonesOk (.glow b d)
  | wait (b : BaseState) (d : ℚ) : DonesOk (.wait b d)
  | group (b : BaseState) (cs : List Anim) (h : b.done = true → ∀ c ∈ cs, c.done = true)
      (hc : ∀ c ∈ cs, DonesOk c) : DonesOk (.group b cs)
  | seq (b : BaseState) (q : List Anim) (act : Option Anim)
      (h : b.done = true → q = [] ∧ act = none)
      (ha : ∀ x, act = some x → DonesOk x) : DonesOk (.seq b q act)

/-- Every begun leaf of the animation tree, and recursively every begun
descendant, has its recorded start time at or after the given instant, so a
tick at that instant sees elapsed time at most zero everywhere. -/
inductive StartsGe (now : ℚ) : Anim → Prop
  | look (b : BaseState) (d : ℚ) (eid : EyeId) (o ds : Point) (dx dy : ℤ)
      (h : ∀ s, b.start = some s → now ≤ s) : StartsGe now (.look b d eid o ds dx dy)
  | blink (b : BaseState) (d : ℚ) (eid : EyeId) (el : ℤ)
      (h : ∀ s, b.start = some s → now ≤ s) : StartsGe now (.blink b d eid el)
  | glow (b : BaseState) (d : ℚ) (h : ∀ s, b.start = some s → now ≤ s) :
      StartsGe now (.glow b d)
  | wait (b : BaseState) (d : ℚ) : StartsGe now (.wait b d)
  | group (b : BaseState) (cs : List Anim) (hc : ∀ c ∈ cs, StartsGe now c) :
      StartsGe now (.group b cs)
  | seq (b : BaseState) (q : List Anim) (act : Option Anim)
      (ha : ∀ x, act = some x → StartsGe now x) : StartsGe now (.seq b q act)

/-- Documented eyelid range: -1 fully open to 3 nearly closed. -/
def eyeOk (e : Eye) : Prop := -1 ≤ e.eyelids ∧ e.eyelids ≤ 3

/-- Both shared eyes have their eyelid offset in range. -/
def worldInv (w : World) : Prop := eyeOk w.left ∧ eyeOk w.right

/-- Structural induction over the animation tree, with membership hypotheses
for the nested children lists and the active slot. -/
def Anim.myrec {P : Anim → Prop}
    (h1 : ∀ b d eid o ds dx dy, P (.look b d eid o ds dx dy))
    (h2 : ∀ b d eid el, P (.blink b d eid el))
    (h3 : ∀ b d, P (.glow b d))
    (h4 : ∀ b d, P (.wait b d))
    (h5 : ∀ b cs, (∀ c ∈ cs, P c) → P (.group b cs))
    (h6 : ∀ b q act, (∀ x, act = some x → P x) → P (.seq b q act)) :
    ∀ a, P a
  | .look b d eid o ds dx dy => h1 b d eid o ds dx dy
  | .blink b d eid el => h2 b d eid el
  | .glow b d => h3 b d
  | .wait b d => h4 b d
  | .group b cs => h5 b cs (fun c hc => Anim.myrec h1 h2 h3 h4 h5 h6 c)
  | .seq b q act => h6 b q act (fun x hx => Anim.myrec h1 h2 h3 h4 h5 h6 x)

set_option maxRecDepth 4000 in
theorem imageBytes_char : ∀ px ∈ Finset.Icc (0 : ℤ) 7, ∀ py ∈ Finset.Icc (0 : ℤ) 7,
    ∀ el ∈ Finset.Icc (-1 : ℤ) 3, ∀ x y : Fin 8,
    pixelOn (Eye.imageBytes ⟨⟨px, py⟩, el, eyeBall⟩) x y
      = (pixelOn eyeBall x y && !(inPupilBlockB ⟨px, py⟩ x y) && !(inEyelidRowsB el y)) := by
  decide

theorem Point.eq_iff (p q : Point) : p = q ↔ p.x = q.x ∧ p.y = q.y := by
  cases p
  cases q
  simp

theorem World.eye_setEye (w : World) (eid : EyeId) (e : Eye) : (w.setEye eid e).eye eid = e := by
  cases eid <;> rfl

theorem pyInt_intCast (n : ℤ) : pyInt (n : ℚ) = n := by
  unfold pyInt
  split
  · rw [← Int.cast_neg, Int.floor_intCast, neg_neg]
  · exact Int.floor_intCast n

theorem pyInt_eq_floor (q : ℚ) (h : 0 ≤ q) : pyInt q = ⌊q⌋ := by
  unfold pyInt
  rw [if_neg (not_lt.2 h)]

theorem BaseState.eta_done (b : BaseState) (h : b.done = true) :
    ({ b with done := true } : BaseState) = b := by
  cases b
  simp_all

theorem Anim.beginList_eq_map (cs : List Anim) (now : ℚ) :
    Anim.beginList cs now = cs.map fun c => Anim.begin c now := by
  induction cs with
  | nil => rfl
  | cons c cs ih => simp [Anim.beginList, ih]

theorem linStep_none (b : BaseState) (d now : ℚ) (hb : b.start = none) :
    linStep b d now = (b, none) := by
  simp [linStep, hb]

theorem linStep_nonpos (b : BaseState) (d now s : ℚ) (hb : b.start = some s) (h : now ≤ s) :
    linStep b d now = (b, none) := by
  have hle : now - s ≤ 0 := by linarith
  simp only [linStep, hb]
  rw [if_pos hle]

theorem linStep_fst_done (b : BaseState) (d now : ℚ) (h : b.done = true) :
    (linStep b d now).1 = b := by
  obtain ⟨st, dn⟩ := b
  have hd : dn = true := h
  subst hd
  rcases st with _ | s
  · rfl
  · simp only [linStep]
    split_ifs <;> rfl

theorem World.lookAnimate_done (w : World) (eid : EyeId) (o : Point) (dx dy : ℤ) (pct : ℚ) :
    w.lookAnimate eid o dx dy true pct = w := rfl

theorem World.blinkAnimate_done (w : World) (eid : EyeId) (pct : ℚ) :
    w.blinkAnimate eid true pct = w := rfl

theorem World.glowAnimate_done (w : World) (pct : ℚ) :
    w.glowAnimate true pct = w := rfl

theorem Anim.tick_look (b : BaseState) (d : ℚ) (eid : EyeId) (o ds : Point) (dx dy : ℤ)
    (now : ℚ) (w : World) :
    Anim.tick (.look b d eid o ds dx dy) now w
      = (.look (linStep b d now).1 d eid o ds dx dy,
          match (linStep b d now).2 with
          | none => w
          | some pct => w.lookAnimate eid o dx dy b.done pct) := rfl

theorem Anim.tick_blink (b : BaseState) (d : ℚ) (eid : EyeId) (el : ℤ) (now : ℚ) (w : World) :
    Anim.tick (.blink b d eid el) now w
      = (.blink (linStep b d now).1 d eid el,
          match (linStep b d now).2 with
          | none => w
          | some pct => w.blinkAnimate eid b.done pct) := rfl

theorem Anim.tick_glow (b : BaseState) (d : ℚ) (now : ℚ) (w : World) :
    Anim.tick (.glow b d) now w
      = (.glow (linStep b d now).1 d,
          match (linStep b d now).2 with
          | none => w
          | some pct => w.glowAnimate b.done pct) := rfl

theorem Anim.tick_wait (b : BaseState) (d : ℚ) (now : ℚ) (w : World) :
    Anim.tick (.wait b d) now w = (.wait (linStep b d now).1 d, w) := rfl

theorem Anim.tick_group (b : BaseState) (cs : List Anim) (now : ℚ) (w : World) :
    Anim.tick (.group b cs) now w
      = (.group { b with done := (Anim.tickList cs now w).1.all Anim.done }
          (Anim.tickList cs now w).1, (Anim.tickList cs now w).2) := rfl

theorem Anim.tickList_nil (now : ℚ) (w : World) : Anim.tickList [] now w = ([], w) := rfl

theorem Anim.tickList_cons (c : Anim) (cs : List Anim) (now : ℚ) (w : World) :
    Anim.tickList (c :: cs) now w
      = ((Anim.tick c now w).1 :: (Anim.tickList cs now (Anim.tick c now w).2).1,
          (Anim.tickList cs now (Anim.tick c now w).2).2) := rfl

theorem Anim.tick_seq_none_cons (b : BaseState) (c : Anim) (rest : List Anim)
    (now : ℚ) (w : World) :
    Anim.tick (.seq b (c :: rest) none) now w = (.seq b rest (some (Anim.begin c now)), w) := rfl

theorem Anim.tick_seq_none_nil (b : BaseState) (now : ℚ) (w : World) :
    Anim.tick (.seq b [] none) now w = (.seq { b with done := true } [] none, w) := rfl

theorem Anim.tick_seq_some (b : BaseState) (q : List Anim) (a : Anim) (now : ℚ) (w : World) :
    Anim.tick (.seq b q (some a)) now w
      = if a.done then Anim.seqNext b q now w
        else (.seq b q (some (Anim.tick a now w).1), (Anim.tick a now w).2) := rfl

theorem Anim.seqNext_world (b : BaseState) (q : List Anim) (now : ℚ) (w : World) :
    (Anim.seqNext b q now w).2 = w := by
  cases q <;> rfl

theorem Anim.tickList_id (now : ℚ) (cs : List Anim)
    (hall : ∀ c ∈ cs, ∀ w, Anim.tick c now w = (c, w)) :
    ∀ w, Anim.tickList cs now w = (cs, w) := by
  induction cs with
  | nil => intro w; rfl
  | cons c cs ih =>
    intro w
    rw [Anim.tickList_cons, hall c (List.mem_cons_self c cs)]
    have := ih (fun x hx w2 => hall x (List.mem_cons_of_mem c hx) w2) w
    simp [this]

/-- Ticking an animation whose done flag is true, with consistent done flags,
changes neither the animation nor the world. -/
theorem Anim.tick_done_id (a : Anim) (hok : DonesOk a) : a.done = true →
    ∀ (now : ℚ) (w : World), Anim.tick a now w = (a, w) := by
  induction hok with
  | look b d eid o ds dx dy =>
    intro hd now w
    have hb : b.done = true := hd
    rw [Anim.tick_look, linStep_fst_done b d now hb, hb]
    rcases hr : (linStep b d now).2 with _ | pct <;>
      simp [hr, World.lookAnimate_done]
  | blink b d eid el =>
    intro hd now w
    have hb : b.done = true := hd
    rw [Anim.tick_blink, linStep_fst_done b d now hb, hb]
    rcases hr : (linStep b d now).2 with _ | pct <;>
      simp [hr, World.blinkAnimate_done]
  | glow b d =>
    intro hd now w
    have hb : b.done = true := hd
    rw [Anim.tick_glow, linStep_fst_done b d now hb, hb]
    rcases hr : (linStep b d now).2 with _ | pct <;>
      simp [hr, World.glowAnimate_done]
  | wait b d =>
    intro hd now w
    have hb : b.done = true := hd
    rw [Anim.tick_wait, linStep_fst_done b d now hb]
  | group b cs h hc ih =>
    intro hd now w
    have hb : b.done = true := hd
    have hall : ∀ c ∈ cs, ∀ w2, Anim.tick c now w2 = (c, w2) :=
      fun c hcm w2 => ih c hcm (h hb c hcm) now w2
    rw [Anim.tick_group, Anim.tickList_id now cs hall w]
    have hallb : cs.all Anim.done = true := List.all_eq_true.2 (h hb)
    simp [hallb, BaseState.eta_done b hb]
  | seq b q act h ha iha =>
    intro hd now w
    have hb : b.done = true := hd
    obtain ⟨hq, hact⟩ := h hb
    subst hq
    subst hact
    rw [Anim.tick_seq_none_nil, BaseState.eta_done b hb]

theorem Anim.tickList_world_eq (now : ℚ) (cs : List Anim)
    (hall : ∀ c ∈ cs, ∀ w, (Anim.tick c now w).2 = w) :
    ∀ w, (Anim.tickList cs now w).2 = w := by
  induction cs with
  | nil => intro w; rfl
  | cons c cs ih =>
    intro w
    rw [Anim.tickList_cons]
    dsimp only
    rw [ih (fun x hx => hall x (List.mem_cons_of_mem c hx)), hall c (List.mem_cons_self c cs)]

/-- A tick whose timestamp is at or before every recorded start leaves the
eye and device state untouched. -/
theorem Anim.tick_world_eq (now : ℚ) (a : Anim) (h : StartsGe now a) :
    ∀ w : World, (Anim.tick a now w).2 = w := by
  induction h with
  | look b d eid o ds dx dy h =>
    intro w
    rw [Anim.tick_look]
    rcases hb : b.start with _ | s
    · rw [linStep_none b d now hb]
    · rw [linStep_nonpos b d now s hb (h s hb)]
  | blink b d eid el h =>
    intro w
    rw [Anim.tick_blink]
    rcases hb : b.start with _ | s
    · rw [linStep_none b d now hb]
    · rw [linStep_nonpos b d now s hb (h s hb)]
  | glow b d h =>
    intro w
    rw [Anim.tick_glow]
    rcases hb : b.start with _ | s
    · rw [linStep_none b d now hb]
    · rw [linStep_nonpos b d now s hb (h s hb)]
  | wait b d => intro w; rfl
  | group b cs hc ih =>
    intro w
    rw [Anim.tick_group]
    exact Anim.tickList_world_eq now cs ih w
  | seq b q act ha iha =>
    intro w
    cases act with
    | none =>
      cases q <;> rfl
    | some a =>
      rw [Anim.tick_seq_some]
      by_cases hd : a.done = true
      · rw [if_pos hd]
        exact Anim.seqNext_world b q now w
      · rw [if_neg hd]
        exact iha a rfl w

theorem eyeOk_eyelidsSet (e : Eye) (off : ℤ) : eyeOk (e.eyelidsSet off) := by
  simp only [eyeOk, Eye.eyelidsSet]
  omega

theorem eyeOk_look_ (e : Eye) (p : Point) (h : eyeOk e) : eyeOk (e.look_ p) := h

theorem worldInv_eye (w : World) (h : worldInv w) (eid : EyeId) : eyeOk (w.eye eid) := by
  cases eid
  · exact h.1
  · exact h.2

theorem worldInv_setEye (w : World) (eid : EyeId) (e : Eye) (h : worldInv w) (he : eyeOk e) :
    worldInv (w.setEye eid e) := by
  cases eid
  · exact ⟨he, h.2⟩
  · exact ⟨h.1, he⟩

theorem worldInv_lookAnimate (w : World) (eid : EyeId) (o : Point) (dx dy : ℤ) (dn : Bool)
    (pct : ℚ) (h : worldInv w) : worldInv (w.lookAnimate eid o dx dy dn pct) := by
  unfold World.lookAnimate
  split
  · exact h
  · exact worldInv_setEye w eid _ h (eyeOk_look_ _ _ (worldInv_eye w h eid))

theorem worldInv_blinkAnimate (w : World) (eid : EyeId) (dn : Bool) (pct : ℚ)
    (h : worldInv w) : worldInv (w.blinkAnimate eid dn pct) := by
  unfold World.blinkAnimate
  dsimp only
  split
  · exact h
  · have h1 : ∀ w2 : World, worldInv w2 →
        worldInv (if 1 ≤ pct then w2.setEye eid ((w2.eye eid).eyelidsSet (-1)) else w2) := by
      intro w2 h2
      split
      · exact worldInv_setEye w2 eid _ h2 (eyeOk_eyelidsSet _ _)
      · exact h2
    refine h1 _ ?_
    split
    · exact worldInv_setEye w eid _ h (eyeOk_eyelidsSet _ _)
    · exact worldInv_setEye w eid _ h (eyeOk_eyelidsSet _ _)

theorem worldInv_glowAnimate (w : World) (dn : Bool) (pct : ℚ) (h : worldInv w) :
    worldInv (w.glowAnimate dn pct) := by
  unfold World.glowAnimate
  dsimp only
  split
  · exact h
  · split <;> split <;> exact h

theorem Anim.tickList_inv (now : ℚ) (cs : List Anim)
    (hall : ∀ c ∈ cs, ∀ w, worldInv w → worldInv (Anim.tick c now w).2) :
    ∀ w, worldInv w → worldInv (Anim.tickList cs now w).2 := by
  induction cs with
  | nil => intro w h; exact h
  | cons c cs ih =>
    intro w h
    rw [Anim.tickList_cons]
    dsimp only
    exact ih (fun x hx => hall x (List.mem_cons_of_mem c hx)) _
      (hall c (List.mem_cons_self c cs) w h)

/-- Every tick keeps both eyes' eyelid offsets in range. -/
theorem Anim.tick_worldInv : ∀ (a : Anim) (now : ℚ) (w : World),
    worldInv w → worldInv (Anim.tick a now w).2 := by
  intro a
  induction a using Anim.myrec with
  | h1 b d eid o ds dx dy =>
    intro now w h
    rw [Anim.tick_look]
    dsimp only
    rcases hr : (linStep b d now).2 with _ | pct <;> simp only [hr]
    · exact h
    · exact worldInv_lookAnimate w eid o dx dy b.done pct h
  | h2 b d eid el =>
    intro now w h
    rw [Anim.tick_blink]
    dsimp only
    rcases hr : (linStep b d now).2 with _ | pct <;> simp only [hr]
    · exact h
    · exact worldInv_blinkAnimate w eid b.done pct h
  | h3 b d =>
    intro now w h
    rw [Anim.tick_glow]
    dsimp only
    rcases hr : (linStep b d now).2 with _ | pct <;> simp only [hr]
    · exact h
    · exact worldInv_glowAnimate w b.done pct h
  | h4 b d => intro now w h; exact h
  | h5 b cs ih =>
    intro now w h
    rw [Anim.tick_group]
    dsimp only
    exact Anim.tickList_inv now cs (fun c hc => ih c hc now) w h
  | h6 b q act ih =>
    intro now w h
    cases act with
    | none => cases q <;> exact h
    | some a =>
      rw [Anim.tick_seq_some]
      by_cases hd : a.done = true
      · rw [if_pos hd]
        rw [Anim.seqNext_world]
        exact h
      · rw [if_neg hd]
        exact ih a rfl now w h

/-- C1: an AnimationSequence tick with an empty or just-finished active slot
pops the next queued child, begins it at the current timestamp and returns
without ticking it (the popped child receives its first tick only on a later
tick), while a tick with an unfinished active child only steps that child and
pops nothing, so a later child is never begun before every earlier child
reports done. -/
theorem seq_tick_pops_in_order (b : BaseState) (c : Anim) (rest : List Anim)
    (a : Anim) (act : Option Anim) (now : ℚ) (w : World) :
    ((act = none ∨ (act = some a ∧ a.done = true)) →
      Anim.tick (.seq b (c :: rest) act) now w = (.seq b rest (some (Anim.begin c now)), w))
    ∧ ((act = some a ∧ a.done = false) →
      Anim.tick (.seq b (c :: rest) act) now w
        = (.seq b (c :: rest) (some (Anim.tick a now w).1), (Anim.tick a now w).2)) := by
  constructor
  · rintro (rfl | ⟨rfl, hd⟩)
    · rfl
    · rw [Anim.tick_seq_some, if_pos hd]
      rfl
  · rintro ⟨rfl, hd⟩
    rw [Anim.tick_seq_some, if_neg (by simp [hd])]

/-- Witness for seq_tick_pops_in_order: popping the single queued Wait. -/
theorem seq_tick_pops_in_order_witness :
    Anim.tick (.seq ⟨none, false⟩ [Wait.init 0 300] none) 1 W0
      = (.seq ⟨none, false⟩ [] (some (Anim.begin (Wait.init 0 300) 1)), W0) :=
  (seq_tick_pops_in_order ⟨none, false⟩ (Wait.init 0 300) [] (Wait.init 0 300) none 1 W0).1
    (Or.inl rfl)

/-- C2: after any tick an AnimationGroup's done flag is true iff every
child's done flag is true; begin hands the same timestamp to every child's
begin; and ticking any animation whose done flag is already true (with
consistent done flags, as the program always leaves them) changes neither the
animation nor the eye/device state. -/
theorem group_done_iff_and_done_tick_noop :
    (∀ (b : BaseState) (cs : List Anim) (now : ℚ) (w : World),
      ((Anim.tick (.group b cs) now w).1.done = true
        ↔ ∀ c ∈ (Anim.tick (.group b cs) now w).1.childrenOf, c.done = true))
    ∧ (∀ (b : BaseState) (cs : List Anim) (now : ℚ),
      Anim.begin (.group b cs) now
        = .group ⟨some now, b.done⟩ (cs.map fun c => Anim.begin c now))
    ∧ (∀ (a : Anim) (now : ℚ) (w : World), DonesOk a → a.done = true →
      Anim.tick a now w = (a, w)) := by
  refine ⟨?_, ?_, ?_⟩
  · intro b cs now w
    rw [Anim.tick_group]
    exact List.all_eq_true
  · intro b cs now
    rw [← Anim.beginList_eq_map]
    rfl
  · intro a now w hok hd
    exact Anim.tick_done_id a hok hd now w

/-- Witness for group_done_iff_and_done_tick_noop: ticking a finished Wait
leaves the animation and the world untouched. -/
theorem group_done_iff_and_done_tick_noop_witness :
    Anim.tick (.wait ⟨some 0, true⟩ 300) 5 W0 = (.wait ⟨some 0, true⟩ 300, W0) :=
  group_done_iff_and_done_tick_noop.2.2 (.wait ⟨some 0, true⟩ 300) 5 W0
    (DonesOk.wait ⟨some 0, true⟩ 300) rfl

/-- C3 amended: a leaf animation begun at t treats a tick at now less than or
equal to t as a complete no-op, and any tick whose timestamp is at or before
every recorded start in the tree leaves the eye and device state untouched;
a combinator, however, may still advance its scheduling state on such a tick
(see the counterexample). -/
theorem tick_nonpositive_elapsed (a : Anim) (t now : ℚ) (w : World) :
    (a.isLeaf = true → a.startOf = some t → now ≤ t → Anim.tick a now w = (a, w))
    ∧ (StartsGe now a → (Anim.tick a now w).2 = w) := by
  constructor
  · intro hleaf hstart hle
    cases a with
    | look b d eid o ds dx dy =>
      rw [Anim.tick_look, linStep_nonpos b d now t hstart hle]
    | blink b d eid el =>
      rw [Anim.tick_blink, linStep_nonpos b d now t hstart hle]
    | glow b d =>
      rw [Anim.tick_glow, linStep_nonpos b d now t hstart hle]
    | wait b d =>
      rw [Anim.tick_wait, linStep_nonpos b d now t hstart hle]
    | group b cs => simp [Anim.isLeaf] at hleaf
    | seq b q act => simp [Anim.isLeaf] at hleaf
  · intro h
    exact Anim.tick_world_eq now a h w

/-- Witness for tick_nonpositive_elapsed: a Wait begun at 5 ticked at 3. -/
theorem tick_nonpositive_elapsed_witness :
    Anim.tick (.wait ⟨some 5, false⟩ 300) 3 W0 = (.wait ⟨some 5, false⟩ 300, W0) :=
  (tick_nonpositive_elapsed (.wait ⟨some 5, false⟩ 300) 5 3 W0).1 rfl rfl (by norm_num)

/-- C3 counterexample: an AnimationSequence begun at time 0 and ticked again
at time 0 (elapsed exactly 0) does not leave its state unchanged: it pops its
queued child into the active slot and begins it. -/
theorem seq_tick_zero_elapsed_mutates :
    (Anim.tick (.seq ⟨some 0, false⟩ [.wait ⟨none, false⟩ 300] none) 0 W0).1
      ≠ .seq ⟨some 0, false⟩ [.wait ⟨none, false⟩ 300] none := by
  rw [show (Anim.tick (.seq ⟨some 0, false⟩ [.wait ⟨none, false⟩ 300] none) 0 W0).1
      = .seq ⟨some 0, false⟩ [] (some (Anim.begin (.wait ⟨none, false⟩ 300) 0)) from rfl]
  intro h
  exact absurd (congrArg Anim.queueOf h) (by simp [Anim.queueOf])

/-- C9: every write of an eyelid offset goes through the clamping setter
Eye._eyelids, whose result always lies in the documented range -1..3; the
initial eye satisfies the range, and every animation tick preserves it for
both eyes, even though Blink's interpolation computes offsets up to 4. -/
theorem eyelids_clamped_invariant :
    (∀ (e : Eye) (off : ℤ),
      -1 ≤ (e.eyelidsSet off).eyelids ∧ (e.eyelidsSet off).eyelids ≤ 3)
    ∧ eyeOk Eye.init
    ∧ (∀ (a : Anim) (now : ℚ) (w : World), worldInv w → worldInv (Anim.tick a now w).2) := by
  refine ⟨?_, ?_, Anim.tick_worldInv⟩
  · intro e off
    exact eyeOk_eyelidsSet e off
  · exact ⟨by decide, by decide⟩

/-- Witness for eyelids_clamped_invariant: a mid-blink tick keeps the range. -/
theorem eyelids_clamped_invariant_witness :
    worldInv (Anim.tick (.blink ⟨some 0, false⟩ 500 .left 0) 100 W0).2 :=
  eyelids_clamped_invariant.2.2 (.blink ⟨some 0, false⟩ 500 .left 0) 100 W0
    ⟨⟨by decide, by decide⟩, ⟨by decide, by decide⟩⟩

/-- C6: for every Eye state with the pupil in range and the eyelid offset in
its documented range, Eye.image returns the fixed silhouette bitmap with the
2x2 block at columns pupil.x-1..pupil.x and rows pupil.y-1..pupil.y cleared
(each coordinate wrapped mod 8 independently) and, when eyelids is
nonnegative, rows 0..eyelids and 7-eyelids..7 fully cleared; the result does
not depend on the pixel buffer left by a previous render. -/
theorem eye_image_pixel_spec (e : Eye) (hx0 : 0 ≤ e.pupil.x) (hx : e.pupil.x < 8)
    (hy0 : 0 ≤ e.pupil.y) (hy : e.pupil.y < 8) (hl : -1 ≤ e.eyelids) (hu : e.eyelids ≤ 3) :
    (∀ pix : List ℕ, (Eye.image { e with pixels := pix }).pixels = (Eye.image e).pixels)
    ∧ ∀ x y : Fin 8, pixelOn (Eye.image e).pixels x y
        = (pixelOn eyeBall x y && !(inPupilBlockB e.pupil x y) && !(inEyelidRowsB e.eyelids y)) := by
  obtain ⟨⟨px, py⟩, el, pix⟩ := e
  dsimp only at hx0 hx hy0 hy hl hu
  refine ⟨fun pix' => rfl, fun x y => ?_⟩
  have key := imageBytes_char px (Finset.mem_Icc.2 ⟨hx0, by omega⟩)
    py (Finset.mem_Icc.2 ⟨hy0, by omega⟩) el (Finset.mem_Icc.2 ⟨hl, hu⟩) x y
  have hr : (Eye.image (⟨⟨px, py⟩, el, pix⟩ : Eye)).pixels
      = Eye.imageBytes ⟨⟨px, py⟩, el, eyeBall⟩ := rfl
  rw [hr]
  exact key

/-- Witness for eye_image_pixel_spec at the default eye state. -/
theorem eye_image_pixel_spec_witness :
    (∀ pix : List ℕ,
        (Eye.image { Eye.init with pixels := pix }).pixels = (Eye.image Eye.init).pixels)
    ∧ ∀ x y : Fin 8, pixelOn (Eye.image Eye.init).pixels x y
        = (pixelOn eyeBall x y && !(inPupilBlockB Eye.init.pupil x y)
            && !(inEyelidRowsB Eye.init.eyelids y)) :=
  eye_image_pixel_spec Eye.init (by decide) (by decide) (by decide) (by decide)
    (by decide) (by decide)

theorem World.lookAnimate_not_done (w : World) (eid : EyeId) (o : Point) (dx dy : ℤ)
    (pct : ℚ) :
    w.lookAnimate eid o dx dy false pct
      = w.setEye eid ((w.eye eid).look_
          ⟨pyInt ((o.x : ℚ) + (dx : ℚ) * pct), pyInt ((o.y : ℚ) + (dy : ℚ) * pct)⟩) := rfl

theorem World.glowAnimate_not_done (w : World) (pct : ℚ) :
    w.glowAnimate false pct
      = (let w1 :=
          if pct < 1 / 2 then { w with contrast := pyInt (30 + 120 * (pct / (49 / 100))) }
          else { w with contrast := pyInt (150 - 120 * ((pct - 1 / 2) / (49 / 100))) }
         if 1 ≤ pct then { w1 with contrast := 30 } else w1) := rfl

theorem glowCalls_one : glowCalls 1 = [27, 30] := by
  unfold glowCalls
  rw [if_neg (by norm_num : ¬((1 : ℚ) < 1 / 2)), if_pos (le_refl (1 : ℚ))]
  have hq : (150 : ℚ) - 120 * ((1 - 1 / 2) / (49 / 100)) = 1350 / 49 := by norm_num
  have hf : ⌊(1350 / 49 : ℚ)⌋ = 27 := Int.floor_eq_iff.2 (by norm_num)
  rw [hq, pyInt_eq_floor _ (by norm_num), hf]
  rfl

theorem glowCalls_499 : glowCalls (499 / 1000) = [152] := by
  unfold glowCalls
  rw [if_pos (by norm_num : (499 / 1000 : ℚ) < 1 / 2),
    if_neg (by norm_num : ¬((1 : ℚ) ≤ 499 / 1000))]
  have hq : (30 : ℚ) + 120 * ((499 / 1000) / (49 / 100)) = 7458 / 49 := by norm_num
  have hf : ⌊(7458 / 49 : ℚ)⌋ = 152 := Int.floor_eq_iff.2 (by norm_num)
  rw [hq, pyInt_eq_floor _ (by norm_num), hf]
  rfl

theorem glow_floor_bound_up (pct : ℚ) (h0 : 0 ≤ pct) (h1 : pct < 1 / 2) :
    27 ≤ pyInt (30 + 120 * (pct / (49 / 100))) ∧ pyInt (30 + 120 * (pct / (49 / 100))) ≤ 152 := by
  have hdiv : pct / (49 / 100 : ℚ) = pct * (100 / 49) := by ring
  have hq0 : (30 : ℚ) ≤ 30 + 120 * (pct / (49 / 100)) := by
    rw [hdiv]
    nlinarith
  have hq1 : 30 + 120 * (pct / (49 / 100)) < 153 := by
    rw [hdiv]
    nlinarith
  rw [pyInt_eq_floor _ (by linarith)]
  constructor
  · exact Int.le_floor.2 (by push_cast; linarith)
  · have : ⌊30 + 120 * (pct / (49 / 100 : ℚ))⌋ < 153 := Int.floor_lt.2 (by push_cast; linarith)
    omega

theorem glow_floor_bound_down (pct : ℚ) (h0 : 1 / 2 ≤ pct) (h1 : pct ≤ 1) :
    27 ≤ pyInt (150 - 120 * ((pct - 1 / 2) / (49 / 100)))
    ∧ pyInt (150 - 120 * ((pct - 1 / 2) / (49 / 100))) ≤ 152 := by
  have hdiv : (pct - 1 / 2) / (49 / 100 : ℚ) = (pct - 1 / 2) * (100 / 49) := by ring
  have hq0 : (27 : ℚ) ≤ 150 - 120 * ((pct - 1 / 2) / (49 / 100)) := by
    rw [hdiv]
    nlinarith
  have hq1 : 150 - 120 * ((pct - 1 / 2) / (49 / 100)) < 153 := by
    rw [hdiv]
    nlinarith
  rw [pyInt_eq_floor _ (by linarith)]
  constructor
  · exact Int.le_floor.2 (by push_cast; linarith)
  · have : ⌊150 - 120 * ((pct - 1 / 2) / (49 / 100) : ℚ)⌋ < 153 := Int.floor_lt.2 (by push_cast; linarith)
    omega

/-- C4 (code bug): the Wait constructed by the idle refill receives the
drawn duration randint(5,7)*500 in its unused eye parameter, so its
duration_ms is the default 300, not the drawn value; shown at the draw 5,
where the queue's second animation is Wait(2500) with duration_ms 300. -/
theorem idle_wait_duration_is_300 :
    (∀ r : ℤ, Anim.durationOf (Wait.init (r * 500)) = some 300)
    ∧ (idleRefill W0 3 3 5 1 1 0).queueOf[1]? = some (Wait.init (5 * 500))
    ∧ Anim.durationOf (Wait.init (5 * 500)) = some 300
    ∧ (300 : ℚ) ≠ 5 * 500 := by
  refine ⟨fun r => rfl, rfl, rfl, by norm_num⟩

/-- C5 amended: CrazySpin with default parameters builds exactly times*8 = 16
sequential two-Look groups; step i targets Point(4-i, 4) for both eyes, so
the wrapped target columns run 4,3,2,1,0,7,6,5 twice, each of the 8 columns
exactly twice, and each step after the first is one column to the left of
the previous step's target; the first step, however, targets the default
pupil position itself, so its Looks are done at construction and move
nothing. -/
theorem crazySpin_structure :
    (CrazySpin.init W0 400).queueOf.length = 2 * 8
    ∧ ((CrazySpin.init W0 400).queueOf.map fun g => g.childrenOf.map Anim.destOf)
        = ((List.range 16).map fun i =>
            [some (Point.mk (4 - (i : ℤ)) 4), some (Point.mk (4 - (i : ℤ)) 4)])
    ∧ ((CrazySpin.init W0 400).queueOf.map fun g =>
          (g.childrenOf.headI.destOf).map fun p => p.x % 8)
        = [some 4, some 3, some 2, some 1, some 0, some 7, some 6, some 5,
           some 4, some 3, some 2, some 1, some 0, some 7, some 6, some 5]
    ∧ (([0, 1, 2, 3, 4, 5, 6, 7] : List ℤ).map fun col =>
          ((CrazySpin.init W0 400).queueOf.map fun g =>
              (g.childrenOf.headI.destOf).map fun p => p.x % 8).count (some col))
        = [2, 2, 2, 2, 2, 2, 2, 2]
    ∧ (CrazySpin.init W0 400).queueOf.headI.childrenOf.headI.done = true
    ∧ W0.left.pupil = ⟨4, 4⟩ := by
  refine ⟨rfl, by decide, by decide, by decide, rfl, rfl⟩

/-- C5 counterexample: the first CrazySpin step does not move the pupil one
column to the left of the previous (default) position: its Look targets
column 4, the default column itself, and is done already at construction. -/
theorem crazySpin_first_step_no_move :
    (CrazySpin.init W0 400).queueOf.headI.childrenOf.headI.destOf = some ⟨4, 4⟩
    ∧ W0.left.pupil = ⟨4, 4⟩
    ∧ (CrazySpin.init W0 400).queueOf.headI.childrenOf.headI.done = true
    ∧ (4 : ℤ) ≠ (4 - 1) % 8 :=
  ⟨rfl, rfl, rfl, by decide⟩

/-- C7: for a Look whose origin and destination differ, the animation is not
done at construction; _animate commits the truncated interpolation
origin + (dest - origin) * pct to the eye wrapped mod 8 per axis, so
_animate(0) leaves the pupil at the origin (mod 8) and _animate(1) places it
exactly at the destination (mod 8). -/
theorem look_animate_endpoints (eid : EyeId) (e0 : Eye) (wh : Point) (d : ℚ) (w : World)
    (h : e0.pupil ≠ wh) :
    (Look.init eid e0 wh d).done = false
    ∧ (∀ pct : ℚ,
        ((w.lookAnimate eid e0.pupil (wh.x - e0.pupil.x) (wh.y - e0.pupil.y) false pct).eye
            eid).pupil
          = ⟨pyInt ((e0.pupil.x : ℚ) + ((wh.x - e0.pupil.x : ℤ) : ℚ) * pct) % 8,
              pyInt ((e0.pupil.y : ℚ) + ((wh.y - e0.pupil.y : ℤ) : ℚ) * pct) % 8⟩)
    ∧ ((w.lookAnimate eid e0.pupil (wh.x - e0.pupil.x) (wh.y - e0.pupil.y) false 0).eye
          eid).pupil = ⟨e0.pupil.x % 8, e0.pupil.y % 8⟩
    ∧ ((w.lookAnimate eid e0.pupil (wh.x - e0.pupil.x) (wh.y - e0.pupil.y) false 1).eye
          eid).pupil = ⟨wh.x % 8, wh.y % 8⟩ := by
  have hpct : ∀ pct : ℚ,
      ((w.lookAnimate eid e0.pupil (wh.x - e0.pupil.x) (wh.y - e0.pupil.y) false pct).eye
          eid).pupil
        = ⟨pyInt ((e0.pupil.x : ℚ) + ((wh.x - e0.pupil.x : ℤ) : ℚ) * pct) % 8,
            pyInt ((e0.pupil.y : ℚ) + ((wh.y - e0.pupil.y : ℤ) : ℚ) * pct) % 8⟩ := by
    intro pct
    rw [World.lookAnimate_not_done, World.eye_setEye]
    rfl
  refine ⟨?_, hpct, ?_, ?_⟩
  · have hd : (Look.init eid e0 wh d).done
        = (wh.x - e0.pupil.x == 0 && wh.y - e0.pupil.y == 0) := rfl
    have hne : ¬(wh.x - e0.pupil.x = 0 ∧ wh.y - e0.pupil.y = 0) := by
      rintro ⟨h1, h2⟩
      exact h ((Point.eq_iff e0.pupil wh).2 ⟨by omega, by omega⟩)
    rw [hd]
    cases h1 : (wh.x - e0.pupil.x == 0) <;> cases h2 : (wh.y - e0.pupil.y == 0) <;>
      simp_all
  · rw [hpct 0]
    rw [show (e0.pupil.x : ℚ) + ((wh.x - e0.pupil.x : ℤ) : ℚ) * 0 = ((e0.pupil.x : ℤ) : ℚ) by ring]
    rw [show (e0.pupil.y : ℚ) + ((wh.y - e0.pupil.y : ℤ) : ℚ) * 0 = ((e0.pupil.y : ℤ) : ℚ) by ring]
    rw [pyInt_intCast, pyInt_intCast]
  · rw [hpct 1]
    rw [show (e0.pupil.x : ℚ) + ((wh.x - e0.pupil.x : ℤ) : ℚ) * 1 = ((wh.x : ℤ) : ℚ) by
      push_cast; ring]
    rw [show (e0.pupil.y : ℚ) + ((wh.y - e0.pupil.y : ℤ) : ℚ) * 1 = ((wh.y : ℤ) : ℚ) by
      push_cast; ring]
    rw [pyInt_intCast, pyInt_intCast]

/-- Witness for look_animate_endpoints: committing pct = 1 of a Look from the
default pupil (4,4) to (2,3) puts the pupil at (2,3). -/
theorem look_animate_endpoints_witness :
    ((W0.lookAnimate .left Eye.init.pupil ((⟨2, 3⟩ : Point).x - Eye.init.pupil.x)
        ((⟨2, 3⟩ : Point).y - Eye.init.pupil.y) false 1).eye .left).pupil
      = ⟨(⟨2, 3⟩ : Point).x % 8, (⟨2, 3⟩ : Point).y % 8⟩ :=
  (look_animate_endpoints .left Eye.init ⟨2, 3⟩ 200 W0 (by decide)).2.2.2

/-- C8 amended: for every pct in [0,1], each contrast value GlowEyes._animate
passes to the device lies in 27..152, not 30..150: the 0.49 divisor
overshoots, so int(30 + 120*(pct/0.49)) reaches 152 just below the midpoint
and int(150 - 120*((pct-0.5)/0.49)) reaches 27 at pct = 1; the final call
once pct reaches 1 still forces the contrast to exactly 30, which is the
contrast the device is left with. -/
theorem glow_contrast_range :
    (∀ pct : ℚ, 0 ≤ pct → pct ≤ 1 → ∀ c ∈ glowCalls pct, 27 ≤ c ∧ c ≤ 152)
    ∧ glowCalls 1 = [27, 30]
    ∧ (∀ (pct : ℚ) (w : World), 1 ≤ pct → (w.glowAnimate false pct).contrast = 30) := by
  refine ⟨?_, glowCalls_one, ?_⟩
  · intro pct h0 h1 c hc
    unfold glowCalls at hc
    by_cases hhalf : pct < 1 / 2
    · rw [if_pos hhalf, if_neg (by linarith)] at hc
      simp only [List.append_nil, List.mem_singleton] at hc
      subst hc
      exact glow_floor_bound_up pct h0 hhalf
    · rw [if_neg hhalf] at hc
      rcases List.mem_append.1 hc with hm | hm
      · rw [List.mem_singleton] at hm
        subst hm
        exact glow_floor_bound_down pct (le_of_not_lt hhalf) h1
      · have : c = 30 := by
          by_cases hp : (1 : ℚ) ≤ pct
          · rw [if_pos hp] at hm
            exact List.mem_singleton.1 hm
          · rw [if_neg hp] at hm
            exact absurd hm (List.not_mem_nil c)
        subst this
        exact ⟨by norm_num, by norm_num⟩
  · intro pct w hp
    rw [World.glowAnimate_not_done]
    dsimp only
    rw [if_pos hp]

/-- C8 counterexample: at pct = 0.499, inside [0,1], GlowEyes passes contrast
152 to the device, above the claimed maximum of 150. -/
theorem glow_contrast_exceeds_150 :
    glowCalls (499 / 1000) = [152] ∧ ¬((152 : ℤ) ≤ 150) :=
  ⟨glowCalls_499, by decide⟩

/-- C10 counterexample: Eye._look mutates the Point object passed to it: after
committing Point(12, 4) to eye state, the object's x field reads 4, not 12. -/
theorem point_mutated_by_look : Point.afterLook ⟨12, 4⟩ ≠ (⟨12, 4⟩ : Point) := by decide

/-- C10 amended: a Point is not immutable. Eye._look installs the given Point
object as the pupil and overwrites that object's x and y with their values
mod 8, so the point survives the call unchanged exactly when both coordinates
already lie in 0..7; consumers needing a different target construct a new
Point rather than shifting an existing one. -/
theorem look_wraps_point_in_place (e : Eye) (p : Point) :
    Point.afterLook p = ⟨p.x % 8, p.y % 8⟩
    ∧ (Eye.look_ e p).pupil = Point.afterLook p
    ∧ (Point.afterLook p = p ↔ (0 ≤ p.x ∧ p.x < 8 ∧ 0 ≤ p.y ∧ p.y < 8)) := by
  refine ⟨rfl, rfl, ?_⟩
  cases p with
  | mk px py =>
    simp only [Point.afterLook, Point.mk.injEq]
    omega

end ScaryPi
